import Mathlib

/-!
Shallow embedding of the analysis pipeline of `src/app.py` (sentiment
scorer, skill matcher, entity highlighter, analysis orchestrator) and
proofs of the specification claims about it.
-/

namespace TextIntel

/-- A token of the tokenized document, as produced by the external NLP
pipeline: `text` is the surface form (`t.text`), `ws` the trailing
whitespace (`t.whitespace_`, needed to reconstruct `doc[s:e].text`),
and `lemma_` the lemma (`t.lemma_`). -/
structure Token where
  text : String
  ws : String
  lemma_ : String

/-- Python's `str.lower()`, modelled characterwise (ASCII case folding,
which covers every string the lexicons and skill patterns compare). -/
def strLower (s : String) : String := String.mk (s.data.map Char.toLower)

/-- `pos_words = {"love", "great", "amazing", "good", "excellent"}` (app.py line 160). -/
def pos_words : List String := ["love", "great", "amazing", "good", "excellent"]

/-- `neg_words = {"bad", "hate", "poor", "terrible"}` (app.py line 161). -/
def neg_words : List String := ["bad", "hate", "poor", "terrible"]

/-- `pos = sum(1 for t in doc if t.lemma_.lower() in pos_words)` (app.py line 163). -/
def posCount (toks : List Token) : Nat :=
  toks.countP (fun t => pos_words.contains (strLower t.lemma_))

/-- `neg = sum(1 for t in doc if t.lemma_.lower() in neg_words)` (app.py line 164). -/
def negCount (toks : List Token) : Nat :=
  toks.countP (fun t => neg_words.contains (strLower t.lemma_))

/-- `total = pos + neg if pos + neg else 1` (app.py line 166). -/
def totalOf (toks : List Token) : Nat :=
  if posCount toks + negCount toks = 0 then 1 else posCount toks + negCount toks

/-- `sentiment = "Positive" if pos >= neg else "Negative"` (app.py line 167). -/
def sentimentLabel (toks : List Token) : String :=
  if posCount toks ≥ negCount toks then "Positive" else "Negative"

/-- Python `round(x, 2)` on an exact rational, with ties away from the
half point resolved by `round` (round-half-up on ℚ). -/
def round2 (q : ℚ) : ℚ := (round (q * 100) : ℚ) / 100

/-- `confidence = round(max(pos, neg) / total * 100, 2)` (app.py line 168). -/
def confidenceOf (toks : List Token) : ℚ :=
  round2 ((Nat.max (posCount toks) (negCount toks) : ℚ) / (totalOf toks : ℚ) * 100)

theorem round2_mono {x y : ℚ} (h : x ≤ y) : round2 x ≤ round2 y := by
  unfold round2
  have hr : round (x * 100) ≤ round (y * 100) := by
    rw [round_eq, round_eq]
    exact Int.floor_mono (by linarith)
  have : ((round (x * 100) : ℤ) : ℚ) ≤ ((round (y * 100) : ℤ) : ℚ) := by
    exact_mod_cast hr
  linarith

theorem round2_zero : round2 0 = 0 := by
  norm_num [round2, round_eq]

theorem round2_fifty : round2 50 = 50 := by
  norm_num [round2, round_eq]

theorem round2_hundred : round2 100 = 100 := by
  norm_num [round2, round_eq]

theorem confidenceOf_eq_of_total_ne (toks : List Token)
    (h : posCount toks + negCount toks ≠ 0) :
    confidenceOf toks =
      round2 ((Nat.max (posCount toks) (negCount toks) : ℚ) /
        ((posCount toks : ℚ) + (negCount toks : ℚ)) * 100) := by
  unfold confidenceOf totalOf
  rw [if_neg h]
  push_cast
  ring_nf

theorem confidenceOf_eq_zero_of_no_match (toks : List Token)
    (hp : posCount toks = 0) (hn : negCount toks = 0) : confidenceOf toks = 0 := by
  simp only [confidenceOf, totalOf, hp, hn]
  norm_num [round2, round_eq]

theorem two_mul_max_ge (p n : Nat) : p + n ≤ 2 * Nat.max p n := by
  have h1 : p ≤ Nat.max p n := Nat.le_max_left p n
  have h2 : n ≤ Nat.max p n := Nat.le_max_right p n
  have h3 : Nat.max p n = p ∨ Nat.max p n = n := max_choice p n
  rcases h3 with h3 | h3 <;> omega

/-- `skills = ["python", "spacy", "nlp", "machine learning", "docker", "aws", "sql"]`
(app.py lines 74-78). -/
def skills : List String :=
  ["python", "spacy", "nlp", "machine learning", "docker", "aws", "sql"]

/-- Helper for `splitWords`: accumulates the current word (reversed) while
scanning the characters. -/
def splitWordsAux (cur : List Char) : List Char → List String
  | [] => if cur = [] then [] else [String.mk cur.reverse]
  | c :: rest =>
    if c = ' ' then
      if cur = [] then splitWordsAux [] rest
      else String.mk cur.reverse :: splitWordsAux [] rest
    else splitWordsAux (c :: cur) rest

/-- Python's `str.split()` restricted to the space separator, which is the
only whitespace occurring in the skill phrases: splits into maximal
space-free words, dropping empty pieces. -/
def splitWords (s : String) : List String := splitWordsAux [] s.data

/-- `patterns = [[ LOWER: tok for tok in skill.split()] for skill in skills]`
(app.py line 81): each pattern is the list of lowercase words of one skill
phrase; a pattern element matches a document token whose lowercased surface
form equals it. -/
def skillPatterns : List (List String) := skills.map splitWords

/-- The spaCy `LOWER` attribute of a token: its lowercased surface form. -/
def tokenLower (t : Token) : String := strLower t.text

/-- The lowercased surface forms of the window of `n` tokens starting at
index `s`. -/
def windowLowers (d : List Token) (s n : Nat) : List String :=
  ((d.drop s).take n).map tokenLower

/-- A skill pattern `p` matches document `d` at start index `s` iff the
contiguous window of exactly `p.length` tokens starting at `s` exists and
its lowercased surface forms equal `p` positionally (the semantics of a
spaCy `Matcher` pattern of `LOWER` attributes, app.py lines 80-82). -/
def matchesAt (d : List Token) (p : List String) (s : Nat) : Bool :=
  windowLowers d s p.length == p

/-- All spans `(s, s + p.length)` at which pattern `p` matches `d`. -/
def matchSpansFor (d : List Token) (p : List String) : List (Nat × Nat) :=
  (List.range (d.length + 1)).filterMap fun s =>
    if matchesAt d p s then some (s, s + p.length) else none

/-- `matches = matcher(doc)` (app.py line 170): every (start, end) token
span at which some skill pattern matches, over all patterns. -/
def matcherMatches (d : List Token) : List (Nat × Nat) :=
  (skillPatterns.map (matchSpansFor d)).flatten

/-- `doc[s:e].text` for a token window: the surface forms joined with each
token's trailing whitespace, except after the last token. -/
def joinSpan : List Token → String
  | [] => ""
  | [t] => t.text
  | t :: t2 :: ts => t.text ++ t.ws ++ joinSpan (t2 :: ts)

/-- The source text of the span `doc[s:e]`, original casing. -/
def spanText (d : List Token) (s e : Nat) : String :=
  joinSpan ((d.drop s).take (e - s))

/-- The lexicographic string order on the underlying character lists (the
order Python's `sorted` applies to the matched span texts). -/
def strLeProp (a b : String) : Prop := a.data ≤ b.data

instance : DecidableRel strLeProp :=
  fun a b => inferInstanceAs (Decidable (a.data ≤ b.data))

instance : IsTotal String strLeProp := ⟨fun a b => le_total a.data b.data⟩

instance : IsTrans String strLeProp := ⟨fun _ _ _ h1 h2 => le_trans h1 h2⟩

/-- `found_skills = sorted(set(doc[s:e].text for _, s, e in matches))`
(app.py line 171): the distinct matched span texts in lexicographically
sorted order. `set`/`sorted` are modelled by `dedup` followed by an
insertion sort into the string order; the sorted arrangement of a
duplicate-free collection is unique, so any sort models `sorted`. -/
def foundSkills (d : List Token) : List String :=
  List.insertionSort strLeProp
    (((matcherMatches d).map fun m => spanText d m.1 m.2).dedup)

/-- The spec scenario document, the tokenization of
`"I love Python and hate Docker."`. -/
def demoDoc : List Token :=
  [⟨"I", " ", "I"⟩, ⟨"love", " ", "love"⟩, ⟨"Python", " ", "Python"⟩,
   ⟨"and", " ", "and"⟩, ⟨"hate", " ", "hate"⟩, ⟨"Docker", "", "Docker"⟩,
   ⟨".", "", "."⟩]

theorem skillPatterns_ne_nil : ∀ q ∈ skillPatterns, q ≠ [] := by decide

theorem foundSkills_sorted (d : List Token) :
    (foundSkills d).Pairwise (fun a b : String => a ≤ b) :=
  (List.sorted_insertionSort strLeProp _).imp
    (fun hab => String.le_iff_toList_le.mpr hab)

theorem foundSkills_nodup (d : List Token) : (foundSkills d).Nodup :=
  (List.perm_insertionSort strLeProp _).symm.nodup (List.nodup_dedup _)

theorem mem_foundSkills (d : List Token) (x : String) :
    x ∈ foundSkills d ↔ ∃ m ∈ matcherMatches d, spanText d m.1 m.2 = x := by
  rw [foundSkills, (List.perm_insertionSort strLeProp _).mem_iff,
    List.mem_dedup, List.mem_map]

theorem matchesAt_iff (d : List Token) (p : List String) (s : Nat) (hp : p ≠ []) :
    matchesAt d p s = true ↔
      (s + p.length ≤ d.length ∧
        ∀ i, i < p.length → (d[s + i]?).map tokenLower = p[i]?) := by
  have hp0 : 0 < p.length := List.length_pos.mpr hp
  unfold matchesAt windowLowers
  rw [beq_iff_eq]
  constructor
  · intro h
    have hlen : (((d.drop s).take p.length).map tokenLower).length = p.length := by rw [h]
    rw [List.length_map, List.length_take, List.length_drop] at hlen
    have h1 : p.length ≤ d.length - s := inf_eq_left.mp hlen
    refine ⟨by omega, fun i hi => ?_⟩
    have h2 := congrArg (fun l : List String => l[i]?) h
    simp only [List.getElem?_map, List.getElem?_take, List.getElem?_drop, if_pos hi] at h2
    exact h2
  · rintro ⟨hle, hpt⟩
    apply List.ext_getElem?
    intro n
    rw [List.getElem?_map, List.getElem?_take, List.getElem?_drop]
    by_cases hn : n < p.length
    · rw [if_pos hn]
      exact hpt n hn
    · rw [if_neg hn]
      simp only [Option.map_none']
      symm
      exact List.getElem?_eq_none (by omega)

theorem mem_matcherMatches (d : List Token) (s e : Nat) :
    (s, e) ∈ matcherMatches d ↔
      ∃ p ∈ skillPatterns, e = s + p.length ∧ matchesAt d p s = true := by
  constructor
  · intro hmem
    rw [matcherMatches, List.mem_flatten] at hmem
    obtain ⟨l, hl, hmem⟩ := hmem
    rw [List.mem_map] at hl
    obtain ⟨p, hp, rfl⟩ := hl
    rw [matchSpansFor, List.mem_filterMap] at hmem
    obtain ⟨a, _, hsome⟩ := hmem
    by_cases h : matchesAt d p a
    · rw [if_pos h] at hsome
      have hpair := Option.some.inj hsome
      have h1 : a = s := congrArg Prod.fst hpair
      have h2 : a + p.length = e := congrArg Prod.snd hpair
      subst h1
      subst h2
      exact ⟨p, hp, rfl, h⟩
    · rw [if_neg h] at hsome
      exact absurd hsome (by simp)
  · rintro ⟨p, hp, rfl, hm⟩
    have hle := ((matchesAt_iff d p s (skillPatterns_ne_nil p hp)).mp hm).1
    rw [matcherMatches, List.mem_flatten]
    refine ⟨matchSpansFor d p, List.mem_map.mpr ⟨p, hp, rfl⟩, ?_⟩
    rw [matchSpansFor, List.mem_filterMap]
    exact ⟨s, List.mem_range.mpr (by omega), by rw [if_pos hm]⟩

/-- The characters Python's `re.escape` prefixes with a backslash
(its special-character table: parentheses, brackets, braces, and
`?*+-|^$\.&~#` together with the whitespace characters space, tab,
newline, carriage return, vertical tab and form feed). -/
def specialChars : List Char :=
  ['(', ')', '[', ']', '\x7b', '\x7d', '?', '*', '+', '-', '|', '^', '$',
   '\\', '.', '&', '~', '#', ' ', '\t', '\n', '\r', '\x0b', '\x0c']

/-- One character of `re.escape` output. -/
def escapeChar (c : Char) : List Char :=
  if c ∈ specialChars then ['\\', c] else [c]

/-- Python's `re.escape` on a character list. -/
def escapeChars (l : List Char) : List Char := (l.map escapeChar).flatten

/-- Python's `re.escape(value)` (app.py line 118). -/
def reEscape (s : String) : String := String.mk (escapeChars s.data)

/-- The pattern string the highlighter builds around the escaped entity
value (app.py line 118): a backslash-b word boundary, an opening group
paren, the escaped value, a closing paren, and a closing boundary. -/
def mkPattern (v : String) : String := "\\b(" ++ reEscape v ++ ")\\b"

/-- The regex metacharacters: characters that carry pattern syntax when
they appear unescaped. All of them are in `specialChars`. -/
def metaChars : List Char :=
  ['.', '^', '$', '*', '+', '?', '\x7b', '\x7d', '[', ']', '\\', '|', '(', ')']

/-- Interprets the body of the pattern between the opening group paren
and the end: a run of literal characters (bare non-metacharacters, or
backslash-escaped non-alphanumeric characters) closed by the final paren
and boundary. Returns the literal text the body denotes, or `none` when
the body is not pure literal matching (an unescaped metacharacter, a
dangling backslash, or a backslash-letter class) — the conservative model
of a pattern that could fail to compile or match non-literally. -/
def parseLitBody : List Char → Option (List Char)
  | [] => none
  | c :: rest =>
    if c = ')' then if rest = ['\\', 'b'] then some [] else none
    else if c = '\\' then
      match rest with
      | [] => none
      | d :: rest2 => if d.isAlphanum then none else (parseLitBody rest2).map (d :: ·)
    else if c ∈ metaChars then none
    else (parseLitBody rest).map (c :: ·)

/-- Interprets a full highlighter pattern: the literal text whose
word-boundary-anchored occurrences it matches, or `none` when it is not
of that literal shape. -/
def parsePattern : List Char → Option (List Char)
  | '\\' :: 'b' :: '(' :: rest => parseLitBody rest
  | _ => none

/-- A regex word character: alphanumeric or underscore. -/
def isWordChar (c : Char) : Bool := c.isAlphanum || c = '_'

/-- Word-character test on an optional character, with the ends of the
string counting as non-word. -/
def optWord : Option Char → Bool
  | none => false
  | some c => isWordChar c

/-- A word boundary sits between two positions exactly when their
word-character statuses differ. -/
def boundaryB (a b : Option Char) : Bool := optWord a != optWord b

/-- Case-insensitive prefix test: the literal pattern characters against
the text, both lowered (re.IGNORECASE). -/
def ciStarts : List Char → List Char → Bool
  | [], _ => true
  | _ :: _, [] => false
  | a :: as, b :: bs => (a.toLower == b.toLower) && ciStarts as bs

/-- The replacement `r"<mark>\1</mark>"` applied to a match: group 1 is
the matched text itself, in its original casing. -/
def markWrap (m : List Char) : List Char := "<mark>".data ++ m ++ "</mark>".data

/-- The scanning loop of `re.sub`: walk the text left to right; wherever
the boundary-anchored literal matches case-insensitively, emit the
wrapped match and resume after it (replacement text is not rescanned
within one call); otherwise copy one character. `prev` is the text
character before the current position (for the left boundary test);
`fuel` bounds the recursion and is at least the text length, so it never
runs out on a nonempty literal. -/
def subAux (lit : List Char) : Nat → Option Char → List Char → List Char
  | 0, _, l => l
  | _ + 1, _, [] => []
  | fuel + 1, prev, c :: rest =>
    if ciStarts lit (c :: rest) && boundaryB prev (some c) &&
        boundaryB ((c :: rest).take lit.length).getLast? ((c :: rest).drop lit.length).head? then
      markWrap ((c :: rest).take lit.length) ++
        subAux lit fuel ((c :: rest).take lit.length).getLast? ((c :: rest).drop lit.length)
    else
      c :: subAux lit fuel (some c) rest

/-- Global word-boundary-anchored case-insensitive literal substitution.
Entity texts produced by the NER are nonempty; the zero-width matching of
an empty pattern is outside the model and left as the identity. -/
def applySub (lit : List Char) (text : List Char) : List Char :=
  if lit = [] then text else subAux lit text.length none text

/-- One `re.sub` call of the highlighter (app.py lines 117-122): the
pattern string is built from the escaped value, interpreted, and its
literal denotation substituted case-insensitively with word boundaries;
`none` models a pattern that fails to denote literal matching (a compile
error / non-literal behavior, which escaping is there to prevent). -/
def substOne (v : String) (t : String) : Option String :=
  (parsePattern (mkPattern v).data).map fun lit => String.mk (applySub lit t.data)

/-- `highlight_entities(text, entities)` (app.py lines 114-123): fold the
substitution over the entities in the order supplied. -/
def highlight_entities (text : String) (entities : List (String × String)) :
    Option String :=
  entities.foldlM (fun acc lv => substOne lv.2 acc) text

theorem meta_subset_special : ∀ c ∈ metaChars, c ∈ specialChars := by decide

theorem special_not_alnum : ∀ c ∈ specialChars, c.isAlphanum = false := by decide

theorem escapeChars_cons (c : Char) (l : List Char) :
    escapeChars (c :: l) = escapeChar c ++ escapeChars l := by
  simp [escapeChars]

theorem parseLitBody_escape (l : List Char) :
    parseLitBody (escapeChars l ++ [')', '\\', 'b']) = some l := by
  induction l with
  | nil => decide
  | cons c l ih =>
    rw [escapeChars_cons, escapeChar]
    by_cases hc : c ∈ specialChars
    · have hna : c.isAlphanum = false := special_not_alnum c hc
      rw [if_pos hc]
      simp only [List.cons_append, List.nil_append, List.append_assoc]
      simp only [parseLitBody]
      simp [hna, ih]
    · have h1 : c ≠ ')' := fun h => hc (h ▸ (by decide))
      have h2 : c ≠ '\\' := fun h => hc (h ▸ (by decide))
      have h3 : c ∉ metaChars := fun hm => hc (meta_subset_special c hm)
      rw [if_neg hc]
      show parseLitBody (c :: (escapeChars l ++ [')', '\\', 'b'])) = some (c :: l)
      rcases hT : escapeChars l ++ [')', '\\', 'b'] with _ | ⟨d, T2⟩
      · exact absurd hT (by simp)
      · rw [hT] at ih
        simp only [parseLitBody]
        rw [if_neg h1, if_neg h2, if_neg h3, ih]
        rfl

theorem mkPattern_data (v : String) :
    (mkPattern v).data = '\\' :: 'b' :: '(' :: (escapeChars v.data ++ [')', '\\', 'b']) := by
  show ("\\b(" ++ reEscape v ++ ")\\b").data = _
  rw [String.data_append, String.data_append]
  show (['\\', 'b', '('] ++ escapeChars v.data) ++ [')', '\\', 'b'] = _
  simp [List.append_assoc]

theorem parsePattern_mkPattern (v : String) :
    parsePattern (mkPattern v).data = some v.data := by
  rw [mkPattern_data]
  show parseLitBody (escapeChars v.data ++ [')', '\\', 'b']) = some v.data
  exact parseLitBody_escape v.data

theorem substOne_eq (v t : String) :
    substOne v t = some (String.mk (applySub v.data t.data)) := by
  rw [substOne, parsePattern_mkPattern]
  rfl

theorem highlight_isSome (entities : List (String × String)) :
    ∀ text : String, (highlight_entities text entities).isSome = true := by
  induction entities with
  | nil => intro t; rfl
  | cons e es ih =>
    intro t
    show ((substOne e.2 t) >>=
      fun acc => es.foldlM (fun acc lv => substOne lv.2 acc) acc).isSome = true
    rw [substOne_eq]
    exact ih _

/-- The output of the external NLP pipeline `nlp(text)`: the tokenized
document and the recognized entity spans `(ent.label_, ent.text)`. -/
structure SpacyDoc where
  tokens : List Token
  ents : List (String × String)

/-- The `result` record assembled per analysis (app.py lines 174-180). -/
structure AnalysisResult where
  text : String
  sentiment : String
  confidence : ℚ
  skills : List String
  entities : List (String × String)

/-- The analysis of a non-blank input given the pipeline's document
(app.py lines 158-180). -/
def analysisResult (text : String) (doc : SpacyDoc) : AnalysisResult :=
  { text := text
    sentiment := sentimentLabel doc.tokens
    confidence := confidenceOf doc.tokens
    skills := foundSkills doc.tokens
    entities := doc.ents }

/-- `not text.strip()` (app.py line 155): the text is empty or consists
only of whitespace characters. -/
def isBlank (s : String) : Bool :=
  s.data.all fun c => c ∈ [' ', '\t', '\n', '\r', '\x0b', '\x0c']

/-- The orchestrating analysis branch (app.py lines 154-181): on a blank
input, warn and record nothing; otherwise run the pipeline, assemble the
result and append it to the history. The first component is `none` on the
warning path, where no AnalysisResult is produced. -/
def runAnalysis (nlp : String → SpacyDoc) (text : String)
    (history : List AnalysisResult) :
    Option AnalysisResult × List AnalysisResult :=
  if isBlank text then (none, history)
  else
    (some (analysisResult text (nlp text)),
     history ++ [analysisResult text (nlp text)])

theorem confidenceOf_bounds (toks : List Token) :
    0 ≤ confidenceOf toks ∧ confidenceOf toks ≤ 100 := by
  rcases Nat.eq_zero_or_pos (posCount toks + negCount toks) with h | h
  · rw [confidenceOf_eq_zero_of_no_match toks (by omega) (by omega)]
    norm_num
  · rw [confidenceOf_eq_of_total_ne toks (by omega)]
    have ht : (0 : ℚ) < (posCount toks : ℚ) + (negCount toks : ℚ) := by
      have : (0 : ℚ) < ((posCount toks + negCount toks : ℕ) : ℚ) := by exact_mod_cast h
      push_cast at this
      linarith
    have hm0 : (0 : ℚ) ≤ (Nat.max (posCount toks) (negCount toks) : ℚ) := by positivity
    have hmle : (Nat.max (posCount toks) (negCount toks) : ℚ) ≤
        (posCount toks : ℚ) + (negCount toks : ℚ) := by
      have : Nat.max (posCount toks) (negCount toks) ≤ posCount toks + negCount toks :=
        Nat.max_le.mpr ⟨Nat.le_add_right _ _, Nat.le_add_left _ _⟩
      push_cast
      exact_mod_cast this
    constructor
    · calc (0 : ℚ) = round2 0 := round2_zero.symm
      _ ≤ _ := round2_mono (by positivity)
    · calc round2 _ ≤ round2 100 :=
        round2_mono (by
          rw [div_mul_eq_mul_div, div_le_iff₀ ht]
          nlinarith)
      _ = 100 := round2_hundred

end TextIntel

namespace TextIntel

/-- Claim C1: the sentiment scorer labels the result Positive whenever
`pos ≥ neg` and Negative otherwise; in particular `pos = neg > 0` gives
Positive. -/
theorem sentiment_tiebreak_positive (toks : List Token) :
    (negCount toks ≤ posCount toks → sentimentLabel toks = "Positive") ∧
    (posCount toks < negCount toks → sentimentLabel toks = "Negative") ∧
    (posCount toks = negCount toks → 0 < posCount toks → sentimentLabel toks = "Positive") := by
  refine ⟨fun h => ?_, fun h => ?_, fun h _ => ?_⟩
  · simp [sentimentLabel, ge_iff_le, h]
  · simp [sentimentLabel, ge_iff_le]
    omega
  · simp [sentimentLabel, ge_iff_le, h.ge]

/-- Witness for C1: a document with one positive and one negative token
(pos = neg = 1 > 0) is labelled Positive. -/
theorem sentiment_tiebreak_positive_witness :
    sentimentLabel [⟨"love", " ", "love"⟩, ⟨"hate", "", "hate"⟩] = "Positive" :=
  (sentiment_tiebreak_positive _).2.2 (by decide) (by decide)

/-- Claim C2: a document with no positive and no negative lemma matches
(`pos = 0` and `neg = 0`) yields exactly `(Positive, 0.0)`: the zero total
makes the divisor `1` and the confidence degenerates to `0`. -/
theorem no_signal_gives_positive_zero (toks : List Token)
    (hp : posCount toks = 0) (hn : negCount toks = 0) :
    sentimentLabel toks = "Positive" ∧ confidenceOf toks = 0 := by
  constructor
  · simp [sentimentLabel, hp, hn]
  · exact confidenceOf_eq_zero_of_no_match toks hp hn

/-- Witness for C2: the empty document has `pos = 0` and `neg = 0` and is
scored `(Positive, 0)`. -/
theorem no_signal_gives_positive_zero_witness :
    sentimentLabel ([] : List Token) = "Positive" ∧ confidenceOf [] = 0 :=
  no_signal_gives_positive_zero [] (by decide) (by decide)

/-- Claim C3: a document with strictly more negative than positive lemma
matches (`neg > pos`) is labelled Negative with confidence
`round(neg / (pos + neg) * 100, 2)`. -/
theorem negative_majority_label_confidence (toks : List Token)
    (h : posCount toks < negCount toks) :
    sentimentLabel toks = "Negative" ∧
    confidenceOf toks =
      round2 ((negCount toks : ℚ) /
        ((posCount toks : ℚ) + (negCount toks : ℚ)) * 100) := by
  constructor
  · simp only [sentimentLabel, ge_iff_le, if_neg (by omega : ¬ negCount toks ≤ posCount toks)]
  · rw [confidenceOf_eq_of_total_ne toks (by omega)]
    have hmax : Nat.max (posCount toks) (negCount toks) = negCount toks :=
      Nat.max_eq_right h.le
    rw [hmax]

/-- Witness for C3: a one-token document whose lemma is "bad" has
`pos = 0 < 1 = neg`, is labelled Negative, and gets confidence
`round(1/1*100, 2) = 100`. -/
theorem negative_majority_label_confidence_witness :
    sentimentLabel [⟨"bad", "", "bad"⟩] = "Negative" ∧
    confidenceOf [⟨"bad", "", "bad"⟩] =
      round2 ((negCount [⟨"bad", "", "bad"⟩] : ℚ) /
        ((posCount [⟨"bad", "", "bad"⟩] : ℚ) + (negCount [⟨"bad", "", "bad"⟩] : ℚ)) * 100) :=
  negative_majority_label_confidence [⟨"bad", "", "bad"⟩] (by decide)

/-- Claim C10 (implicit): the confidence is never strictly between 0 and
50 — with `pos + neg = 0` it is exactly 0, and otherwise it equals
`round(max(pos,neg)/(pos+neg)*100, 2)` which is at least 50 because
`max(pos,neg)` is at least half of `pos + neg`. -/
theorem confidence_gap_zero_to_fifty (toks : List Token) :
    (posCount toks + negCount toks = 0 → confidenceOf toks = 0) ∧
    (0 < posCount toks + negCount toks →
      confidenceOf toks =
        round2 ((Nat.max (posCount toks) (negCount toks) : ℚ) /
          ((posCount toks : ℚ) + (negCount toks : ℚ)) * 100) ∧
      50 ≤ confidenceOf toks) ∧
    (confidenceOf toks = 0 ∨ 50 ≤ confidenceOf toks) := by
  have hzero : posCount toks + negCount toks = 0 → confidenceOf toks = 0 := by
    intro h
    exact confidenceOf_eq_zero_of_no_match toks (by omega) (by omega)
  have hpos : 0 < posCount toks + negCount toks →
      confidenceOf toks =
        round2 ((Nat.max (posCount toks) (negCount toks) : ℚ) /
          ((posCount toks : ℚ) + (negCount toks : ℚ)) * 100) ∧
      50 ≤ confidenceOf toks := by
    intro h
    have heq := confidenceOf_eq_of_total_ne toks (by omega)
    refine ⟨heq, ?_⟩
    rw [heq]
    have ht : (0 : ℚ) < (posCount toks : ℚ) + (negCount toks : ℚ) := by
      have : (0 : ℚ) < ((posCount toks + negCount toks : ℕ) : ℚ) := by
        exact_mod_cast h
      push_cast at this
      linarith
    have hm : ((posCount toks : ℚ) + (negCount toks : ℚ)) ≤
        2 * (Nat.max (posCount toks) (negCount toks) : ℚ) := by
      have := two_mul_max_ge (posCount toks) (negCount toks)
      exact_mod_cast this
    have h50 : (50 : ℚ) ≤
        (Nat.max (posCount toks) (negCount toks) : ℚ) /
          ((posCount toks : ℚ) + (negCount toks : ℚ)) * 100 := by
      rw [div_mul_eq_mul_div, le_div_iff₀ ht]
      linarith
    calc (50 : ℚ) = round2 50 := round2_fifty.symm
    _ ≤ _ := round2_mono h50
  refine ⟨hzero, hpos, ?_⟩
  rcases Nat.eq_zero_or_pos (posCount toks + negCount toks) with h | h
  · exact Or.inl (hzero h)
  · exact Or.inr (hpos h).2

/-- Witness for C10: the empty document hits the zero branch and a
one-token "bad" document hits the `≥ 50` branch. -/
theorem confidence_gap_zero_to_fifty_witness :
    confidenceOf ([] : List Token) = 0 ∧ 50 ≤ confidenceOf [⟨"bad", "", "bad"⟩] :=
  ⟨(confidence_gap_zero_to_fifty []).1 (by decide),
   ((confidence_gap_zero_to_fifty [⟨"bad", "", "bad"⟩]).2.1 (by decide)).2⟩

/-- Claim C5: for every tokenized document the skill matcher returns the
lexicographically sorted list of distinct matched span texts; each element
is the original-casing source text `doc[s:e].text` of some matched span
(not the lowercase pattern), and repeated matches of the same span text
are stored only once. On the spec scenario document the result is
`["Docker", "Python"]`, sorted and in original casing. -/
theorem foundSkills_sorted_distinct_spans (d : List Token) :
    (foundSkills d).Pairwise (fun a b : String => a ≤ b) ∧
    (foundSkills d).Nodup ∧
    (∀ x, x ∈ foundSkills d ↔
      ∃ m ∈ matcherMatches d, spanText d m.1 m.2 = x) ∧
    foundSkills demoDoc = ["Docker", "Python"] :=
  ⟨foundSkills_sorted d, foundSkills_nodup d, mem_foundSkills d, by decide⟩

/-- Witness for C5: on the scenario document, "Python" (original casing)
is in the returned skill list because the span `(2, 3)` matches. -/
theorem foundSkills_sorted_distinct_spans_witness :
    "Python" ∈ foundSkills demoDoc :=
  ((foundSkills_sorted_distinct_spans demoDoc).2.2.1 "Python").mpr
    ⟨(2, 3), by decide, by decide⟩

/-- Claim C6: a span is a matcher match exactly when some skill pattern
matches a contiguous window of exactly the pattern's length whose
lowercased surface forms equal the pattern positionally; a single token
merely containing a pattern word as a substring is never matched
("pythonista" does not match "python"), and "machine learning" requires
the two adjacent tokens. -/
theorem matcher_exact_window (d : List Token) (s e : Nat) :
    ((s, e) ∈ matcherMatches d ↔
      ∃ p ∈ skillPatterns, e = s + p.length ∧ s + p.length ≤ d.length ∧
        ∀ i, i < p.length → (d[s + i]?).map tokenLower = p[i]?) ∧
    matcherMatches [⟨"pythonista", "", "pythonista"⟩] = [] ∧
    matcherMatches [⟨"Machine", " ", "machine"⟩, ⟨"Learning", "", "learning"⟩] =
      [(0, 2)] := by
  refine ⟨?_, by decide, by decide⟩
  rw [mem_matcherMatches]
  constructor
  · rintro ⟨p, hp, rfl, hm⟩
    obtain ⟨hle, hpt⟩ := (matchesAt_iff d p s (skillPatterns_ne_nil p hp)).mp hm
    exact ⟨p, hp, rfl, hle, hpt⟩
  · rintro ⟨p, hp, rfl, hle, hpt⟩
    exact ⟨p, hp, rfl,
      (matchesAt_iff d p s (skillPatterns_ne_nil p hp)).mpr ⟨hle, hpt⟩⟩

/-- Witness for C6: in the one-token document "Python", the span `(0, 1)`
is a match, via the pattern `["python"]` and the characterization. -/
theorem matcher_exact_window_witness :
    (0, 1) ∈ matcherMatches [⟨"Python", "", "Python"⟩] :=
  (matcher_exact_window [⟨"Python", "", "Python"⟩] 0 1).1.mpr
    ⟨["python"], by decide, by decide, by decide, by decide⟩

/-- Claim C7: for every input text and every entity list the highlighter
does not throw — every entity value is escaped before the pattern is
built, so every built pattern denotes word-boundary-anchored,
case-insensitive matching of exactly the literal value text, and the fold
over the entities always produces a result. Concretely, the value "a.c"
wraps only the literal "a.c" (the unescaped '.' would also have matched
"abc"), and a value containing '(' goes through without error. -/
theorem highlighter_escapes_literal_total :
    (∀ v : String, parsePattern (mkPattern v).data = some v.data) ∧
    (∀ v t : String, substOne v t = some (String.mk (applySub v.data t.data))) ∧
    (∀ (text : String) (entities : List (String × String)),
      (highlight_entities text entities).isSome = true) ∧
    substOne "a.c" "abc and a.c" = some "abc and <mark>a.c</mark>" ∧
    substOne "f(1)g" "run f(1)g now" = some "run <mark>f(1)g</mark> now" :=
  ⟨fun v => parsePattern_mkPattern v,
   fun v t => substOne_eq v t,
   fun text entities => highlight_isSome entities text,
   by decide, by decide⟩

/-- Claim C8: the highlighter processes entities sequentially in the
order supplied and is order-dependent and not idempotent: with the
overlapping values "Google" and "Google Inc" on the text
"I like Google Inc", the two processing orders produce different outputs
(the later substitution can re-match text already wrapped by the earlier
one, including text inside an inserted marker), and applying the
highlighter twice with the same single entity differs from applying it
once. -/
theorem highlighter_order_dependent_not_idempotent :
    highlight_entities "I like Google Inc" [("ORG", "Google"), ("ORG", "Google Inc")] =
      some "I like <mark>Google</mark> Inc" ∧
    highlight_entities "I like Google Inc" [("ORG", "Google Inc"), ("ORG", "Google")] =
      some "I like <mark><mark>Google</mark> Inc</mark>" ∧
    highlight_entities "I like Google Inc" [("ORG", "Google"), ("ORG", "Google Inc")] ≠
      highlight_entities "I like Google Inc" [("ORG", "Google Inc"), ("ORG", "Google")] ∧
    (highlight_entities "I like Google Inc" [("ORG", "Google")]).bind
        (fun t => highlight_entities t [("ORG", "Google")]) =
      some "I like <mark><mark>Google</mark></mark> Inc" ∧
    (highlight_entities "I like Google Inc" [("ORG", "Google")]).bind
        (fun t => highlight_entities t [("ORG", "Google")]) ≠
      highlight_entities "I like Google Inc" [("ORG", "Google")] := by
  refine ⟨by decide, by decide, by decide, by decide, by decide⟩

/-- Claim C4: on an empty or whitespace-only input text, the orchestrator
reports the empty-input condition without crashing (`none` result),
produces no AnalysisResult, leaves the history unchanged, and never
invokes the NLP pipeline: the outcome is the same for every pipeline
function. -/
theorem empty_input_short_circuits (text : String) (h : isBlank text = true) :
    ∀ (nlp nlp2 : String → SpacyDoc) (history : List AnalysisResult),
      runAnalysis nlp text history = (none, history) ∧
      runAnalysis nlp text history = runAnalysis nlp2 text history := by
  intro nlp nlp2 history
  constructor <;> simp [runAnalysis, h]

/-- Witness for C4: on the whitespace-only input `"   "`, the orchestrator
returns no result and the empty history stays empty. -/
theorem empty_input_short_circuits_witness :
    runAnalysis (fun _ => ⟨[], []⟩) "   " [] = (none, []) :=
  (empty_input_short_circuits "   " (by decide)
    (fun _ => ⟨[], []⟩) (fun _ => ⟨[], []⟩) []).1

/-- Claim C9: every AnalysisResult produced by an analysis invocation has
its confidence in [0, 100], a skills list without duplicate phrases, and
a sentiment label that is exactly one of the two values Positive or
Negative. -/
theorem analysis_result_invariant (nlp : String → SpacyDoc) (text : String)
    (history : List AnalysisResult) (r : AnalysisResult)
    (h : (runAnalysis nlp text history).1 = some r) :
    0 ≤ r.confidence ∧ r.confidence ≤ 100 ∧ r.skills.Nodup ∧
    (r.sentiment = "Positive" ∨ r.sentiment = "Negative") := by
  unfold runAnalysis at h
  by_cases hb : isBlank text = true
  · rw [if_pos hb] at h
    exact absurd h (by simp)
  · rw [if_neg hb] at h
    have hr : r = analysisResult text (nlp text) := (Option.some.inj h).symm
    subst hr
    refine ⟨(confidenceOf_bounds (nlp text).tokens).1,
      (confidenceOf_bounds (nlp text).tokens).2,
      foundSkills_nodup (nlp text).tokens, ?_⟩
    show sentimentLabel (nlp text).tokens = "Positive" ∨
      sentimentLabel (nlp text).tokens = "Negative"
    unfold sentimentLabel
    split
    · exact Or.inl rfl
    · exact Or.inr rfl

/-- Witness for C9: the result of analyzing the non-blank text "hi" with
a trivial pipeline satisfies the invariant. -/
theorem analysis_result_invariant_witness :
    0 ≤ (analysisResult "hi" ⟨[], []⟩).confidence ∧
    (analysisResult "hi" ⟨[], []⟩).confidence ≤ 100 ∧
    (analysisResult "hi" ⟨[], []⟩).skills.Nodup ∧
    ((analysisResult "hi" ⟨[], []⟩).sentiment = "Positive" ∨
     (analysisResult "hi" ⟨[], []⟩).sentiment = "Negative") :=
  analysis_result_invariant (fun _ => ⟨[], []⟩) "hi" [] _ rfl

end TextIntel
